import Mathlib

/-!
Verification development for the `alpha-k8s` namespace-provisioning tool.

The TypeScript sources are shallowly embedded:
* asynchronous remote calls are represented by their results, supplied by an
  environment record (`Except String α` per call);
* the shared revert stack and the chronological sequence of performed remote
  calls are threaded as an explicit `SagaState`;
* the unbounded polling loop recurses on the finite stream of `describeStacks`
  results supplied by the environment (exhausting the stream is reported as a
  failure, modelling a poll session cut short);
* the external YAML (de)serialisation of the `aws-auth` config map is modelled
  as the identity on the list of mapping entries, and the external `JSON.parse`
  is modelled on an abstract payload that is either a parsed field list or a
  malformed blob (parsing the latter raises, as `JSON.parse` does).
-/

namespace AlphaK8s

/-- An event detail payload, standing for the raw `ResourceProperties` string:
either content that `JSON.parse` accepts (its top-level string fields) or a
malformed blob on which `JSON.parse` throws. -/
inductive RawProps where
  | parsable (fields : List (String × String))
  | malformed (raw : String)
deriving DecidableEq

/-- One CloudFormation stack event, as consumed by `create-namespace`
(timestamps are `getTime()` values). -/
structure StackEvent where
  EventId : String
  Timestamp : Nat
  ResourceType : String
  ResourceStatus : String
  ResourceStatusReason : Option String
  ResourceProperties : Option RawProps
deriving DecidableEq

/-- One element of a stack's `Outputs` array. -/
structure StackOutput where
  OutputKey : Option String
  OutputValue : Option String
deriving DecidableEq

/-- The fields of a described stack that `create-namespace` reads. -/
structure Stack where
  StackStatus : String
  Outputs : Option (List StackOutput)
deriving DecidableEq

/-- One entry of the `mapRoles` list of the `aws-auth` config map. -/
structure MapRole where
  groups : List String
  rolearn : String
  username : String
deriving DecidableEq

/-- One RBAC rule, with the optional fields of the command's `rbacRules`
parameter type. -/
structure RbacRule where
  apiGroups : Option (List String) := none
  nonResourceURLs : Option (List String) := none
  resourceNames : Option (List String) := none
  resources : Option (List String) := none
  verbs : Option (List String) := none
deriving DecidableEq

/-- Model of the external `JSON.parse` applied to an event payload: a parsable
payload yields its fields, a malformed one throws a syntax error. -/
def jsonParse : RawProps → Except String (List (String × String))
  | .parsable fields => .ok fields
  | .malformed raw => .error ("SyntaxError: Unexpected token in JSON: " ++ raw)

/-- `startsWithSeq l pat`: `l` starts with `pat`. -/
def startsWithSeq : List Char → List Char → Bool
  | _, [] => true
  | [], _ :: _ => false
  | a :: as, b :: bs => a == b && startsWithSeq as bs

/-- `containsSeq l pat`: `pat` occurs contiguously inside `l`. -/
def containsSeq (pat : List Char) : List Char → Bool
  | [] => startsWithSeq [] pat
  | c :: rest => startsWithSeq (c :: rest) pat || containsSeq pat rest

/-- Model of JavaScript `s.includes(pat)`. -/
def strIncludes (s pat : String) : Bool :=
  containsSeq pat.toList s.toList

/-- Model of JavaScript `s.toLowerCase()` restricted to the ASCII mapping the
embedded code relies on. -/
def toLowerStr (s : String) : String :=
  String.mk (s.toList.map Char.toLower)

/-- From `create-namespace` lines 73–75: pick the first truthy value of a
truthy key containing `name` (case-insensitively) from the parsed payload. -/
def eventDetailName (fields : List (String × String)) : Option String :=
  ((fields.filter
      (fun kv => !(kv.1 == "") && !(kv.2 == "") && strIncludes (toLowerStr kv.1) "name")).map
    (fun kv => kv.2)).head?

/-- From `create-namespace` lines 73–79: build the display line for one stack
event; `e.ResourceProperties || '\x7b\x7d'` defaults an absent payload to the
empty object, and a malformed payload makes `JSON.parse` throw. -/
def displayEvent (e : StackEvent) : Except String String :=
  match jsonParse (e.ResourceProperties.getD (RawProps.parsable [])) with
  | .error err => .error err
  | .ok fields =>
    let resourceName :=
      match eventDetailName fields with
      | some v => if v == "" then "" else "(" ++ v ++ ")"
      | none => ""
    let statusReason :=
      match e.ResourceStatusReason with
      | some r => if r == "" then "" else " | " ++ r
      | none => ""
    .ok (e.ResourceType ++ resourceName ++ " | " ++ e.ResourceStatus ++ statusReason)

/-- The ordering of the comparator of `create-namespace` line 69:
`(e1, e2) => e1.Timestamp.getTime() - e2.Timestamp.getTime()`. -/
def tsRel (a b : StackEvent) : Prop :=
  a.Timestamp ≤ b.Timestamp

instance : DecidableRel tsRel :=
  fun a b => Nat.decLe a.Timestamp b.Timestamp

instance : IsTotal StackEvent tsRel :=
  ⟨fun a b => Nat.le_total a.Timestamp b.Timestamp⟩

instance : IsTrans StackEvent tsRel :=
  ⟨fun _ _ _ h1 h2 => Nat.le_trans h1 h2⟩

/-- JavaScript's `Array.prototype.sort` with the timestamp comparator; the spec
(ES2019) requires a stable sort, and a stable sort by a total preorder is
extensionally unique, so it is modelled by a stable insertion sort. -/
def sortByTimestamp (evs : List StackEvent) : List StackEvent :=
  List.insertionSort tsRel evs

/-- From `create-namespace` lines 68–70: the batch sorted by timestamp and
restricted to events whose id has not been surfaced yet. -/
def freshOf (published : List String) (evs : List StackEvent) : List StackEvent :=
  (sortByTimestamp evs).filter (fun e => !(published.contains e.EventId))

/-- From `create-namespace` lines 71–80: surface the given events in order,
recording each event id before its display line is computed; a display failure
(a malformed payload) aborts the whole pass.  Returns the updated published-id
list and the surfaced `(event, display line)` pairs. -/
def surfaceAll : List StackEvent → List String →
    Except String (List String × List (StackEvent × String))
  | [], published => .ok (published, [])
  | e :: rest, published =>
    match displayEvent e with
    | .error err => .error err
    | .ok line =>
      match surfaceAll rest (published ++ [e.EventId]) with
      | .error err => .error err
      | .ok (pub, out) => .ok (pub, (e, line) :: out)

/-- From `create-namespace` lines 52–58: resolve the `Stacks` array of a
`describeStacks` response to the unique matching stack. -/
def resolveStacks (stackName : String) : Option (List Stack) → Except String Stack
  | some [stack] => .ok stack
  | _ => .error ("Can not find exactly one stack for name \"" ++ stackName ++ "\"")

/-- A registered compensation, identified by the remote deletion it will
perform (the closure's captured identifiers). -/
inductive Comp where
  | deleteStack (stackName : String)
  | deleteNamespace (name : String)
  | deleteNamespacedRole (roleName ns : String)
  | deleteNamespacedRoleBinding (bindingName ns : String)
  | removeMapRole (rolearn : String)
deriving DecidableEq

/-- One remote (or local directory) call performed during the forward pass,
identified by its arguments. -/
inductive RCall where
  | makeDir (path : String)
  | createStack (stackName : String)
  | describeStacks (stackName : String)
  | describeStackEvents (stackName : String)
  | createNamespace (name : String)
  | createNamespacedRole (ns roleName : String) (rules : List RbacRule)
  | createNamespacedRoleBinding (ns bindingName groupName roleName : String)
  | readConfigMap (name ns : String)
  | replaceConfigMap (name ns : String) (mapRoles : List MapRole)
deriving DecidableEq

/-- One chronological observation of the forward pass: a successful call, or a
compensation being registered on the shared revert stack. -/
inductive Ev where
  | call (c : RCall)
  | addComp (c : Comp)
deriving DecidableEq

/-- The state threaded through one provisioning request: the chronological log
of successful calls and registrations, and the shared revert stack (append
order). -/
structure SagaState where
  log : List Ev
  comps : List Comp
deriving DecidableEq

/-- The state at the start of a provisioning request. -/
def SagaState.empty : SagaState :=
  { log := [], comps := [] }

/-- Record a successful call. -/
def pushCall (st : SagaState) (c : RCall) : SagaState :=
  { st with log := st.log ++ [Ev.call c] }

/-- `revertStack.add(...)`: append a compensation to the shared revert stack
(and record the registration in the log). -/
def pushComp (st : SagaState) (c : Comp) : SagaState :=
  { log := st.log ++ [Ev.addComp c], comps := st.comps ++ [c] }

/-- The state in which a run ends, whether it succeeded or failed. -/
def finalState : Except (String × SagaState) SagaState → SagaState
  | .ok st => st
  | .error (_, st) => st

/-- A `cf.describeStacks` result supplied by the environment: a remote failure,
or the optional `Stacks` array. -/
abbrev DescribeR : Type := Except String (Option (List Stack))

/-- A `cf.describeStackEvents` result supplied by the environment: a remote
failure, or the optional `StackEvents` array. -/
abbrev BatchR : Type := Except String (Option (List StackEvent))

/-- From `create-namespace` lines 52–58: one `describeStack()` call — perform
the remote `describeStacks` call (recording it on success) and resolve the
unique stack, a resolution failure aborting the run. -/
def describeStackStep (stackName : String) (r : DescribeR) (st : SagaState) :
    Except (String × SagaState) (Stack × SagaState) :=
  match r with
  | .error e => .error (e, st)
  | .ok stackList =>
    let st2 := pushCall st (.describeStacks stackName)
    match resolveStacks stackName stackList with
    | .error e => .error (e, st2)
    | .ok stack => .ok (stack, st2)

/-- Model artifact: the environment's finite result streams ran out, i.e. the
poll session was cut short. -/
def pollCutShortMsg : String := "poll result stream exhausted"

/-- From `create-namespace` lines 65–82: the convergence-polling loop.  Each
iteration consumes one `describeStacks` result; while the status is
`CREATE_IN_PROGRESS` it consumes one `describeStackEvents` result, surfaces the
not-yet-published events of the batch in timestamp order, and repeats.
Returns the published ids, the surfaced `(event, line)` pairs in surfacing
order, the unconsumed describe results and the final state. -/
def pollLoop (stackName : String) :
    List DescribeR → List BatchR → List String → SagaState →
    Except (String × SagaState)
      (List String × List (StackEvent × String) × List DescribeR × SagaState)
  | [], _, _, st => .error (pollCutShortMsg, st)
  | d :: ds, bs, published, st =>
    match describeStackStep stackName d st with
    | .error e => .error e
    | .ok (stack, st2) =>
      if stack.StackStatus == "CREATE_IN_PROGRESS" then
        match bs with
        | [] => .error (pollCutShortMsg, st2)
        | b :: bs2 =>
          match b with
          | .error e => .error (e, st2)
          | .ok eventsOpt =>
            let st3 := pushCall st2 (.describeStackEvents stackName)
            match surfaceAll (freshOf published (eventsOpt.getD [])) published with
            | .error e => .error (e, st3)
            | .ok (published2, surfaced) =>
              match pollLoop stackName ds bs2 published2 st3 with
              | .error e => .error e
              | .ok (pubF, surfF, rem, stF) => .ok (pubF, surfaced ++ surfF, rem, stF)
      else
        .ok (published, [], ds, st2)

/-- From `create-namespace` lines 88–93: collect the truthy output key/value
pairs of the converged stack (JavaScript object assignment, so a later key
overwrites an earlier one on lookup). -/
def extractOutputs (stack : Stack) : List (String × String) :=
  (stack.Outputs.getD []).foldl
    (fun acc o =>
      match o.OutputKey, o.OutputValue with
      | some k, some v => if !(k == "") && !(v == "") then acc ++ [(k, v)] else acc
      | _, _ => acc)
    []

/-- JavaScript record lookup on the accumulated outputs (last write wins). -/
def recordGet (m : List (String × String)) (k : String) : Option String :=
  (m.reverse.find? (fun kv => kv.1 == k)).map (fun kv => kv.2)

/-- The results of the remote calls one `create-k8s-namespace-user` run
performs, supplied by the environment.  The read of the `aws-auth` config map
yields the current `mapRoles` entry list (YAML handling modelled as the
identity). -/
structure K8sUserEnv where
  createRoleR : Except String Unit
  createRoleBindingR : Except String Unit
  readConfigMapR : Except String (List MapRole)
  replaceConfigMapR : Except String Unit

/-- The declared parameters of `create-k8s-namespace-user`.  `roleArn` is the
value the caller passes for the required `roleArn` parameter (an absent stack
output is `none`). -/
structure UserParams where
  clusterName : String
  namespaceName : String
  roleArn : Option String
  suffix : String
  rbacRules : List RbacRule
deriving DecidableEq

/-- The `execute` body of `create-k8s-namespace-user` (lines 51–135).  The
callback destructures only `clusterName`, `namespaceName`, `suffix` and
`rbacRules`, and line 57 introduces a local `roleArn` that shadows the declared
parameter for the rest of the body. -/
def createKubernetesNamespaceUserExec (p : UserParams) (env : K8sUserEnv)
    (st0 : SagaState) : Except (String × SagaState) SagaState :=
  let kubernetesName := p.namespaceName ++ "-" ++ p.suffix
  let name := kubernetesName ++ "-" ++ p.clusterName
  let kubernetesGroupName := kubernetesName ++ "-group"
  let kubernetesRoleName := kubernetesName ++ "-role"
  let kubernetesRoleBindingName := kubernetesName ++ "-role-binding"
  let roleArn := name ++ "-k8s-role"
  match env.createRoleR with
  | .error e => .error (e, st0)
  | .ok _ =>
    let st1 := pushComp
      (pushCall st0 (.createNamespacedRole p.namespaceName kubernetesRoleName p.rbacRules))
      (.deleteNamespacedRole kubernetesRoleName p.namespaceName)
    match env.createRoleBindingR with
    | .error e => .error (e, st1)
    | .ok _ =>
      let st2 := pushComp
        (pushCall st1 (.createNamespacedRoleBinding p.namespaceName
          kubernetesRoleBindingName kubernetesGroupName kubernetesRoleName))
        (.deleteNamespacedRoleBinding kubernetesRoleBindingName p.namespaceName)
      match env.readConfigMapR with
      | .error e => .error (e, st2)
      | .ok roles =>
        let st3 := pushCall st2 (.readConfigMap "aws-auth" "kube-system")
        let newRoles := roles ++
          [{ groups := [kubernetesGroupName], rolearn := roleArn, username := kubernetesName }]
        match env.replaceConfigMapR with
        | .error e => .error (e, st3)
        | .ok _ =>
          .ok (pushComp
            (pushCall st3 (.replaceConfigMap "aws-auth" "kube-system" newRoles))
            (.removeMapRole roleArn))

/-- From `create-k8s-namespace-user` lines 129–133: the body of the
mapping-document removal compensation — keep the entries whose `rolearn`
differs from the captured identifier. -/
def removeMapRoleComp (roleArn : String) (roles : List MapRole) : List MapRole :=
  roles.filter (fun role => !(role.rolearn == roleArn))

/-- The admin RBAC rules of `create-namespace` lines 114–125. -/
def adminRbacRules : List RbacRule :=
  [{ apiGroups := some ["", "extensions", "apps", "persistentvolumeclaims",
        "storage.k8s.io", "autoscaling"],
     resources := some ["*"], verbs := some ["*"] },
   { apiGroups := some ["batch"], resources := some ["jobs", "cronjobs"],
     verbs := some ["*"] }]

/-- The deployments RBAC rules of `create-namespace` lines 133–139. -/
def deploymentsRbacRules : List RbacRule :=
  [{ apiGroups := some ["extensions", "apps"], resources := some ["deployments"],
     verbs := some ["*"] }]

/-- The results of the remote calls one `create-namespace` run performs,
supplied by the environment. -/
structure CnEnv where
  makeDirR : Except String Unit
  createStackR : Except String Unit
  describes : List DescribeR
  eventBatches : List BatchR
  createNamespaceR : Except String Unit
  user1 : K8sUserEnv
  user2 : K8sUserEnv

/-- From `create-namespace` line 30: the test
`!namespaceName || !namespaceName.match(/^[a-z][a-z0-9\-]*$/i)`.  The `i` flag
makes the character classes case-insensitive; classes are expressed on
UTF-16/code-point values. -/
def nsLetterCI (c : Char) : Bool :=
  (97 ≤ c.toNat && c.toNat ≤ 122) || (65 ≤ c.toNat && c.toNat ≤ 90)

/-- `[0-9]` on code points. -/
def nsDigit (c : Char) : Bool :=
  48 ≤ c.toNat && c.toNat ≤ 57

/-- `/^[a-z][a-z0-9\-]*$/i` as a whole-string match (`-` is code point 45). -/
def nsNamePattern (s : String) : Bool :=
  match s.toList with
  | [] => false
  | c :: rest =>
    nsLetterCI c && rest.all (fun d => nsLetterCI d || nsDigit d || d.toNat == 45)

/-- The final describe of `create-namespace` line 84, consuming the next
describe result of the environment's stream. -/
def finalDescribe (stackName : String) (remaining : List DescribeR) (st : SagaState) :
    Except (String × SagaState) (Stack × SagaState) :=
  match remaining with
  | [] => .error (pollCutShortMsg, st)
  | d :: _ => describeStackStep stackName d st

/-- The `execute` body of `create-namespace` (lines 29–141): validation,
directory creation, stack creation and its compensation, the convergence poll,
terminal-status classification, output extraction, namespace creation and its
compensation, then the two nested `create-k8s-namespace-user` runs on the same
revert stack. -/
def createNamespaceExec (namespaceName clusterName : String) (env : CnEnv)
    (st0 : SagaState) : Except (String × SagaState) SagaState :=
  if namespaceName == "" || !nsNamePattern namespaceName then
    .error ("Namespace name is invalid: " ++ namespaceName, st0)
  else
    match env.makeDirR with
    | .error e => .error (e, st0)
    | .ok _ =>
      let st1 := pushCall st0 (.makeDir ("./namespaces/" ++ namespaceName))
      let stackName := namespaceName ++ "-namespace"
      match env.createStackR with
      | .error e => .error (e, st1)
      | .ok _ =>
        let st2 := pushComp (pushCall st1 (.createStack stackName)) (.deleteStack stackName)
        match pollLoop stackName env.describes env.eventBatches [] st2 with
        | .error e => .error e
        | .ok (_, _, remaining, st3) =>
          match finalDescribe stackName remaining st3 with
          | .error e => .error e
          | .ok (stack, st4) =>
            if !(stack.StackStatus == "CREATE_COMPLETE") then
              .error ("Unexpected AWS CloudFormation stack creation result.", st4)
            else
              let outputs := extractOutputs stack
              match env.createNamespaceR with
              | .error e => .error (e, st4)
              | .ok _ =>
                let st5 := pushComp (pushCall st4 (.createNamespace namespaceName))
                  (.deleteNamespace namespaceName)
                match createKubernetesNamespaceUserExec
                    { clusterName := clusterName, namespaceName := namespaceName,
                      roleArn := recordGet outputs "AdminKubernetesRole",
                      suffix := "admin", rbacRules := adminRbacRules }
                    env.user1 st5 with
                | .error e => .error e
                | .ok st6 =>
                  createKubernetesNamespaceUserExec
                    { clusterName := clusterName, namespaceName := namespaceName,
                      roleArn := recordGet outputs "DeploymentsKubernetesRole",
                      suffix := "deployments", rbacRules := deploymentsRbacRules }
                    env.user2 st6

/-- Modelled from the spec: the compensating-transaction orchestrator (the
`@lpha/core` revert stack) is not part of this repository's sources, only its
callers are.  A compensation is a deferred action; here it is identified by an
id and carries the outcome invoking it would have. -/
structure Compensation where
  id : Nat
  result : Except String Unit

/-- Modelled from the spec: `unwind()` iterates the sequence from
most-recently-added to least-recently-added, invoking each compensation; each
compensation's failure is caught and reported and does not abort the remaining
steps.  Returns the invoked ids in invocation order and the collected
per-step failures. -/
def unwindAll (stack : List Compensation) : List Nat × List String :=
  (stack.reverse.map (fun c => c.id),
   stack.reverse.filterMap (fun c =>
     match c.result with
     | .ok _ => none
     | .error e => some e))

/-- Modelled from the spec: `runForward(actions)` executes the ordered actions
sequentially; a successful action registers its compensation, a failing action
stops immediately (registering nothing for itself), triggers `unwind()` of
everything registered so far, and then the original forward failure is
re-raised to the caller together with the unwind report. -/
def runForward : List (Except String Compensation) → List Compensation →
    Except (String × List Nat × List String) (List Compensation)
  | [], stack => .ok stack
  | a :: rest, stack =>
    match a with
    | .ok comp => runForward rest (stack ++ [comp])
    | .error e =>
      let u := unwindAll stack
      .error (e, u.1, u.2)

/-- The compensation the spec's invariant pairs with each forward call: side
effecting creations are paired with the deletion over the same derived
identifiers; reads, the local directory creation and the surfacing of events
have no pairing.  The mapping-document write is paired with the removal of the
entry it appended (the last entry of the written list). -/
def compOf : RCall → Option Comp
  | .makeDir _ => none
  | .createStack n => some (.deleteStack n)
  | .describeStacks _ => none
  | .describeStackEvents _ => none
  | .createNamespace n => some (.deleteNamespace n)
  | .createNamespacedRole ns r _ => some (.deleteNamespacedRole r ns)
  | .createNamespacedRoleBinding ns b _ _ => some (.deleteNamespacedRoleBinding b ns)
  | .readConfigMap _ _ => none
  | .replaceConfigMap _ _ roles => roles.getLast?.map (fun r => Comp.removeMapRole r.rolearn)

/-- The spec's compensation discipline over a chronological log: every
registration immediately follows its paired successful call, and every
compensable successful call is immediately followed by its registration,
before anything else happens. -/
def wellPaired : List Ev → Bool
  | [] => true
  | Ev.addComp _ :: _ => false
  | Ev.call c :: rest =>
    match compOf c with
    | none => wellPaired rest
    | some comp =>
      match rest with
      | Ev.addComp c2 :: rest2 => c2 == comp && wellPaired rest2
      | _ => false

/-- The compensations registered over a log, in registration order. -/
def logComps (l : List Ev) : List Comp :=
  l.filterMap (fun ev =>
    match ev with
    | .addComp c => some c
    | _ => none)

/-- The `mapRoles` lists written by the `replaceNamespacedConfigMap` calls of a
log, in call order. -/
def replaceEntriesOf (l : List Ev) : List (List MapRole) :=
  l.filterMap (fun ev =>
    match ev with
    | .call (.replaceConfigMap _ _ roles) => some roles
    | _ => none)

/-- The event batches an environment's `describeStackEvents` stream actually
delivers. -/
def batchesOf (bs : List BatchR) : List (List StackEvent) :=
  bs.filterMap (fun b =>
    match b with
    | .ok (some evs) => some evs
    | _ => none)

/-- ASCII case folding on code points, the claim's reading of "applied
case-insensitively". -/
def foldCaseNat (c : Char) : Nat :=
  if 65 ≤ c.toNat && c.toNat ≤ 90 then c.toNat + 32 else c.toNat

/-- The claim's validation predicate: `/^[a-z][a-z0-9\-]*$/` matched against
the case-folded code points of the name. -/
def specNamePatternCI (s : String) : Bool :=
  match s.toList.map foldCaseNat with
  | [] => false
  | n :: rest =>
    (97 ≤ n && n ≤ 122) &&
      rest.all (fun m => (97 ≤ m && m ≤ 122) || (48 ≤ m && m ≤ 57) || m == 45)

/-- An environment in which every nested remote call succeeds against an
initially empty `mapRoles` document. -/
def okUserEnv : K8sUserEnv :=
  { createRoleR := .ok (), createRoleBindingR := .ok (),
    readConfigMapR := .ok [], replaceConfigMapR := .ok () }

/-- A stack still being created. -/
def inProgressStack : Stack := { StackStatus := "CREATE_IN_PROGRESS", Outputs := none }

/-- The converged stack of the C1 scenario, with both role outputs. -/
def c1stack : Stack :=
  { StackStatus := "CREATE_COMPLETE",
    Outputs := some
      [{ OutputKey := some "AdminKubernetesRole", OutputValue := some "arn:admin" },
       { OutputKey := some "DeploymentsKubernetesRole", OutputValue := some "arn:deploy" }] }

/-- The C1 scenario: everything succeeds, the stack converges immediately and
exposes both role outputs. -/
def c1env : CnEnv :=
  { makeDirR := .ok (), createStackR := .ok (),
    describes := [.ok (some [{ StackStatus := "CREATE_COMPLETE", Outputs := none }]),
                  .ok (some [c1stack])],
    eventBatches := [], createNamespaceR := .ok (),
    user1 := okUserEnv, user2 := okUserEnv }

/-- A stack event with no detail payload. -/
def evX : StackEvent :=
  { EventId := "X", Timestamp := 10, ResourceType := "t", ResourceStatus := "s",
    ResourceStatusReason := none, ResourceProperties := none }

/-- An older event, first delivered only in a later poll. -/
def evY : StackEvent :=
  { EventId := "Y", Timestamp := 5, ResourceType := "t", ResourceStatus := "s",
    ResourceStatusReason := none, ResourceProperties := none }

/-- An event whose detail payload `JSON.parse` rejects. -/
def evBad : StackEvent :=
  { EventId := "B", Timestamp := 7, ResourceType := "t", ResourceStatus := "s",
    ResourceStatusReason := none, ResourceProperties := some (RawProps.malformed "notjson") }

/-- The `(event id, timestamp)` sequence a poll run surfaced, in surfacing
order (empty for a failed run). -/
def surfacedInfo
    (r : Except (String × SagaState)
      (List String × List (StackEvent × String) × List DescribeR × SagaState)) :
    List (String × Nat) :=
  match r with
  | .ok (_, surfaced, _, _) => surfaced.map (fun p => (p.1.EventId, p.1.Timestamp))
  | .error _ => []

/-- The error message of a failed run. -/
def errOf {α : Type} : Except (String × SagaState) α → Option String
  | .error (e, _) => some e
  | .ok _ => none

/-- Three polls: two in progress, then converged. -/
def twoPollDescribes : List DescribeR :=
  [.ok (some [inProgressStack]), .ok (some [inProgressStack]),
   .ok (some [{ StackStatus := "CREATE_COMPLETE", Outputs := none }])]

/-- Two overlapping batches: the second one re-delivers `evX` and first
delivers the older `evY`. -/
def overlappingBatches : List BatchR :=
  [.ok (some [evX]), .ok (some [evX, evY])]

/-- A stack whose creation rolled back. -/
def rollbackStack : Stack := { StackStatus := "ROLLBACK_COMPLETE", Outputs := none }

/-- The C5 scenario: the stack leaves `CREATE_IN_PROGRESS` with terminal
status `ROLLBACK_COMPLETE`. -/
def c5env : CnEnv :=
  { makeDirR := .ok (), createStackR := .ok (),
    describes := [.ok (some [rollbackStack]), .ok (some [rollbackStack])],
    eventBatches := [], createNamespaceR := .ok (),
    user1 := okUserEnv, user2 := okUserEnv }

/-- First entry of the C8 witness document. -/
def mrA : MapRole := { groups := ["g1"], rolearn := "arn:a", username := "u1" }

/-- The matching (middle) entry of the C8 witness document. -/
def mrB : MapRole := { groups := ["g2"], rolearn := "arn:b", username := "u2" }

/-- Last entry of the C8 witness document. -/
def mrC : MapRole := { groups := ["g3"], rolearn := "arn:c", username := "u3" }

/-- The spec's invariant over one saga state: the log respects the
compensation discipline and the revert stack holds exactly the registered
compensations of the log, in order. -/
def SInv (st : SagaState) : Prop :=
  wellPaired st.log = true ∧ st.comps = logComps st.log

/-- The end state of one intermediate saga step. -/
def stepEndState {α : Type} : Except (String × SagaState) (α × SagaState) → SagaState
  | .ok (_, st) => st
  | .error (_, st) => st

/-- The end state of a poll run. -/
def pollEndState : Except (String × SagaState)
    (List String × List (StackEvent × String) × List DescribeR × SagaState) → SagaState
  | .ok (_, _, _, st) => st
  | .error (_, st) => st

/-- Running the successful forward actions of a prefix only moves the
registered compensations onto the stack. -/
theorem runForward_ok_front (pre : List Compensation)
    (rest : List (Except String Compensation)) (stack : List Compensation) :
    runForward (pre.map Except.ok ++ rest) stack = runForward rest (stack ++ pre) := by
  induction pre generalizing stack with
  | nil => simp
  | cons c cs ih =>
    simp only [List.map_cons, List.cons_append, runForward, List.append_eq]
    rw [ih]
    simp [List.append_assoc]

/-- C2: if the first k−1 forward actions succeed and action k fails, the
orchestrator unwinds exactly the k−1 registered compensations in reverse of
their registration order and re-raises the forward failure (here: k−1 is the
length of `pre`, and the failure's report carries the invoked ids in
invocation order together with the original error). -/
theorem c2_unwind_reverse_and_reraise (pre : List Compensation) (e : String)
    (post : List (Except String Compensation)) :
    runForward (pre.map Except.ok ++ (Except.error e :: post)) [] =
      .error (e, pre.reverse.map (fun c => c.id),
        pre.reverse.filterMap (fun c =>
          match c.result with
          | .ok _ => none
          | .error er => some er)) := by
  rw [runForward_ok_front]
  simp [runForward, unwindAll]

/-- C8: when the mapping document holds three entries of which exactly one has
the compensation's role identifier, the removal compensation removes exactly
that entry and keeps the other two, wherever the match sits. -/
theorem c8_removes_exactly_matching_entry (l1 l2 : List MapRole) (m : MapRole)
    (arn : String) (hm : m.rolearn = arn)
    (h1 : ∀ r ∈ l1, ¬ r.rolearn = arn) (h2 : ∀ r ∈ l2, ¬ r.rolearn = arn)
    (hlen : (l1 ++ m :: l2).length = 3) :
    removeMapRoleComp arn (l1 ++ m :: l2) = l1 ++ l2 := by
  unfold removeMapRoleComp
  rw [List.filter_append, List.filter_cons]
  have hmf : (!(m.rolearn == arn)) = false := by simp [hm]
  rw [hmf]
  simp only [Bool.false_eq_true, if_false]
  rw [List.filter_eq_self.mpr (fun r hr => by simp [h1 r hr]),
    List.filter_eq_self.mpr (fun r hr => by simp [h2 r hr])]

/-- C8 witness: a three-entry document with the match in the middle. -/
theorem c8_removes_exactly_matching_entry_witness :
    removeMapRoleComp "arn:b" ([mrA] ++ mrB :: [mrC]) = [mrA] ++ [mrC] :=
  c8_removes_exactly_matching_entry [mrA] [mrC] mrB "arn:b" rfl
    (by decide) (by decide) (by decide)

/-- C9: a namespace name that violates the resource-name pattern makes
`create-namespace` fail at validation, with the run's state still empty — no
remote call was performed and no compensation was registered. -/
theorem c9_invalid_name_fails_before_any_call (namespaceName clusterName : String)
    (env : CnEnv) (h : nsNamePattern namespaceName = false) :
    createNamespaceExec namespaceName clusterName env SagaState.empty =
      .error ("Namespace name is invalid: " ++ namespaceName, SagaState.empty) := by
  unfold createNamespaceExec
  simp [h]

/-- C9 witness: `9bad` starts with a digit. -/
theorem c9_invalid_name_fails_before_any_call_witness :
    createNamespaceExec "9bad" "prod" c1env SagaState.empty =
      .error ("Namespace name is invalid: " ++ "9bad", SagaState.empty) :=
  c9_invalid_name_fails_before_any_call "9bad" "prod" c1env (by decide)

/-- C1: in the scenario where every remote call succeeds and the converged
stack outputs `AdminKubernetesRole = "arn:admin"` and
`DeploymentsKubernetesRole = "arn:deploy"`, the run succeeds, yet the two
identity-mapping entries appended to `mapRoles` record the locally derived
role names as `rolearn` — not the stack output values the claim requires:
the `execute` callback never reads its `roleArn` parameter. -/
theorem c1_mapping_entries_ignore_stack_outputs :
    (replaceEntriesOf
        (finalState (createNamespaceExec "team-a" "c1" c1env SagaState.empty)).log).map
        (fun roles => roles.map (fun r => r.rolearn)) =
      [["team-a-admin-c1-k8s-role"], ["team-a-deployments-c1-k8s-role"]] ∧
    recordGet (extractOutputs c1stack) "AdminKubernetesRole" = some "arn:admin" ∧
    recordGet (extractOutputs c1stack) "DeploymentsKubernetesRole" = some "arn:deploy" ∧
    ¬ ("team-a-admin-c1-k8s-role" = "arn:admin") ∧
    ¬ ("team-a-deployments-c1-k8s-role" = "arn:deploy") := by
  exact ⟨rfl, rfl, rfl, by decide, by decide⟩

/-- C3 counterexample: with two overlapping polls — the first delivering only
the newer event `X`, the second re-delivering `X` together with the older
`Y` — the poller surfaces `X` (timestamp 10) before `Y` (timestamp 5), so the
cross-poll ordering of the claim fails. -/
theorem c3_cross_poll_order_violated :
    surfacedInfo
        (pollLoop "team-a-namespace" twoPollDescribes overlappingBatches []
          SagaState.empty) =
      [("X", 10), ("Y", 5)] ∧ ¬ ((10 : Nat) ≤ 5) := by
  exact ⟨rfl, by decide⟩

/-- C4 counterexample: a poll whose batch holds one event with a malformed
detail payload fails the whole polling pass with the `JSON.parse` error —
the payload is not treated as empty and polling does not continue. -/
theorem c4_unparsable_payload_propagates :
    errOf (pollLoop "team-a-namespace" [.ok (some [inProgressStack])]
        [.ok (some [evBad])] [] SagaState.empty) =
      some "SyntaxError: Unexpected token in JSON: notjson" := by
  exact rfl

/-- C5 counterexample: with terminal status `ROLLBACK_COMPLETE` the operation
raises the fixed classification message, which does not name the observed
terminal status. -/
theorem c5_error_does_not_name_status :
    errOf (createNamespaceExec "team-a" "prod" c5env SagaState.empty) =
      some "Unexpected AWS CloudFormation stack creation result." ∧
    strIncludes "Unexpected AWS CloudFormation stack creation result."
      "ROLLBACK_COMPLETE" = false := by
  exact ⟨rfl, rfl⟩

/-- On success, `surfaceAll` surfaces exactly its input events in order and
appends their ids to the published list. -/
theorem surfaceAll_ok_spec :
    ∀ (evs : List StackEvent) (published pub2 : List String)
      (surfaced : List (StackEvent × String)),
      surfaceAll evs published = .ok (pub2, surfaced) →
      surfaced.map Prod.fst = evs ∧
        pub2 = published ++ evs.map (fun e => e.EventId) := by
  intro evs
  induction evs with
  | nil =>
    intro published pub2 surfaced h
    unfold surfaceAll at h
    cases h
    simp
  | cons e rest ih =>
    intro published pub2 surfaced h
    unfold surfaceAll at h
    cases hd : displayEvent e with
    | error err => rw [hd] at h; cases h
    | ok line =>
      rw [hd] at h
      cases hs : surfaceAll rest (published ++ [e.EventId]) with
      | error err => rw [hs] at h; cases h
      | ok p =>
        obtain ⟨pub, out⟩ := p
        rw [hs] at h
        simp only [Except.ok.injEq, Prod.mk.injEq] at h
        obtain ⟨h3, h4⟩ := h
        obtain ⟨h1, h2⟩ := ih (published ++ [e.EventId]) pub out hs
        constructor
        · rw [← h4]
          simp [h1]
        · rw [← h3, h2]
          simp

/-- The fresh part of one poll batch is sorted by timestamp. -/
theorem freshOf_pairwise (published : List String) (evs : List StackEvent) :
    List.Pairwise tsRel (freshOf published evs) := by
  have hs : List.Sorted tsRel (List.insertionSort tsRel evs) :=
    List.sorted_insertionSort tsRel evs
  exact List.Pairwise.sublist (List.filter_sublist _) hs

/-- C3 amended: within a single poll, the events surfaced by the poller are in
nondecreasing timestamp order (each batch is sorted before surfacing); the
guarantee does not extend across polls when a later poll first delivers an
event older than one already surfaced. -/
theorem c3_within_poll_in_timestamp_order (published : List String)
    (evs : List StackEvent) (pub2 : List String)
    (surfaced : List (StackEvent × String))
    (h : surfaceAll (freshOf published evs) published = .ok (pub2, surfaced)) :
    List.Pairwise (fun a b => a.1.Timestamp ≤ b.1.Timestamp) surfaced := by
  have hf := (surfaceAll_ok_spec _ _ _ _ h).1
  have hp : List.Pairwise tsRel (freshOf published evs) :=
    freshOf_pairwise published evs
  rw [← hf] at hp
  have h2 : List.Pairwise (fun a b => tsRel a.1 b.1) surfaced :=
    List.pairwise_map.mp hp
  exact h2.imp (fun hab => hab)

/-- C3 amended witness: one batch delivering `X` (timestamp 10) and `Y`
(timestamp 5) is surfaced as `Y` then `X`. -/
theorem c3_within_poll_in_timestamp_order_witness :
    List.Pairwise (fun (a b : StackEvent × String) => a.1.Timestamp ≤ b.1.Timestamp)
      [(evY, "t | s"), (evX, "t | s")] :=
  c3_within_poll_in_timestamp_order [] [evX, evY] ["Y", "X"]
    [(evY, "t | s"), (evX, "t | s")] rfl

/-- C4 amended: an event whose detail payload is absent is surfaced without
failure with the neutral display form (no name part), and a batch of such
events is surfaced completely, letting polling continue; a present but
unparsable payload, by contrast, propagates the parse error (see the
counterexample). -/
theorem c4_absent_payload_neutral (evs : List StackEvent) (published : List String)
    (h : ∀ e ∈ evs, e.ResourceProperties = none) :
    ∃ pub2 surfaced, surfaceAll evs published = .ok (pub2, surfaced) ∧
      surfaced.map (fun p => p.2) = evs.map (fun e =>
        e.ResourceType ++ " | " ++ e.ResourceStatus ++
          (match e.ResourceStatusReason with
           | some r => if r == "" then "" else " | " ++ r
           | none => "")) := by
  induction evs generalizing published with
  | nil => exact ⟨published, [], rfl, rfl⟩
  | cons e rest ih =>
    have he : e.ResourceProperties = none := h e (by simp)
    have hd : displayEvent e = .ok (e.ResourceType ++ " | " ++ e.ResourceStatus ++
        (match e.ResourceStatusReason with
         | some r => if r == "" then "" else " | " ++ r
         | none => "")) := by
      unfold displayEvent
      rw [he]
      simp [jsonParse, eventDetailName, String.append_empty]
    obtain ⟨pub2, surfaced, hs, hmap⟩ :=
      ih (published ++ [e.EventId]) (fun e2 h2 => h e2 (by simp [h2]))
    refine ⟨pub2, (e, e.ResourceType ++ " | " ++ e.ResourceStatus ++
        (match e.ResourceStatusReason with
         | some r => if r == "" then "" else " | " ++ r
         | none => "")) :: surfaced, ?_, ?_⟩
    · unfold surfaceAll
      rw [hd, hs]
    · simp [hmap]

/-- C4 amended witness: the payload-free event `X` is surfaced neutrally. -/
theorem c4_absent_payload_neutral_witness :
    ∃ pub2 surfaced, surfaceAll [evX] [] = .ok (pub2, surfaced) ∧
      surfaced.map (fun p => p.2) = [evX].map (fun e =>
        e.ResourceType ++ " | " ++ e.ResourceStatus ++
          (match e.ResourceStatusReason with
           | some r => if r == "" then "" else " | " ++ r
           | none => "")) :=
  c4_absent_payload_neutral [evX] [] (by decide)

/-- The fresh part of a batch with distinct event ids has distinct ids. -/
theorem freshOf_ids_nodup (published : List String) (evs : List StackEvent)
    (h : (evs.map (fun e => e.EventId)).Nodup) :
    ((freshOf published evs).map (fun e => e.EventId)).Nodup := by
  have hperm := List.perm_insertionSort tsRel evs
  have h3 := ((hperm.map (fun e => e.EventId)).symm).nodup h
  exact (((List.filter_sublist _).map _).nodup) h3

/-- Events in the fresh part of a batch were not yet published. -/
theorem freshOf_not_published (published : List String) (evs : List StackEvent) :
    ∀ e ∈ freshOf published evs, published.contains e.EventId = false := by
  intro e he
  have hp := List.of_mem_filter he
  simpa using hp

/-- Across all iterations of one poll session, the surfaced events extend the
published-id list exactly, have pairwise distinct ids, and avoid every id
published before the session's suffix started. -/
theorem pollLoop_surfaced_spec (stackName : String) :
    ∀ (ds : List DescribeR) (bs : List BatchR) (published : List String)
      (st : SagaState) (pubF : List String) (surf : List (StackEvent × String))
      (rem : List DescribeR) (stF : SagaState),
      (∀ evs ∈ batchesOf bs, (evs.map (fun e => e.EventId)).Nodup) →
      pollLoop stackName ds bs published st = .ok (pubF, surf, rem, stF) →
      pubF = published ++ surf.map (fun p => p.1.EventId) ∧
        (surf.map (fun p => p.1.EventId)).Nodup ∧
        ∀ i ∈ surf.map (fun p => p.1.EventId), published.contains i = false := by
  intro ds
  induction ds with
  | nil =>
    intro bs published st pubF surf rem stF hb hrun
    exact absurd hrun (by simp [pollLoop])
  | cons d ds ih =>
    intro bs published st pubF surf rem stF hb hrun
    unfold pollLoop at hrun
    cases hstep : describeStackStep stackName d st with
    | error e => rw [hstep] at hrun; cases hrun
    | ok p =>
      obtain ⟨stack, st2⟩ := p
      rw [hstep] at hrun
      dsimp only [] at hrun
      by_cases hstat : (stack.StackStatus == "CREATE_IN_PROGRESS") = true
      · rw [if_pos hstat] at hrun
        cases bs with
        | nil => cases hrun
        | cons b bs2 =>
          cases b with
          | error e => cases hrun
          | ok eventsOpt =>
            dsimp only [] at hrun
            cases hsa : surfaceAll (freshOf published (eventsOpt.getD [])) published with
            | error e => rw [hsa] at hrun; cases hrun
            | ok q =>
              obtain ⟨published2, surfaced⟩ := q
              rw [hsa] at hrun
              dsimp only [] at hrun
              cases hrec : pollLoop stackName ds bs2 published2
                  (pushCall st2 (RCall.describeStackEvents stackName)) with
              | error e => rw [hrec] at hrun; cases hrun
              | ok r =>
                obtain ⟨pubF2, ⟨surfF, rem2, stF2⟩⟩ := r
                rw [hrec] at hrun
                dsimp only [] at hrun
                simp only [Except.ok.injEq, Prod.mk.injEq] at hrun
                obtain ⟨hE1, hE2, hE3, hE4⟩ := hrun
                have hbatch : ((eventsOpt.getD []).map (fun e => e.EventId)).Nodup := by
                  cases ho : eventsOpt with
                  | none => simp
                  | some evs =>
                    rw [ho] at hb
                    exact hb evs (List.mem_cons_self _ _)
                have hb2 : ∀ evs ∈ batchesOf bs2, (evs.map (fun e => e.EventId)).Nodup := by
                  intro evs hevs
                  cases ho : eventsOpt with
                  | none =>
                    rw [ho] at hb
                    exact hb evs hevs
                  | some evs2 =>
                    rw [ho] at hb
                    exact hb evs (List.mem_cons_of_mem _ hevs)
                obtain ⟨hfst, hpub2⟩ := surfaceAll_ok_spec _ _ _ _ hsa
                have hsurfIds : surfaced.map (fun p => p.1.EventId) =
                    (freshOf published (eventsOpt.getD [])).map (fun e => e.EventId) := by
                  rw [← hfst, List.map_map]
                  rfl
                obtain ⟨hpubF, hnodupF, hnotF⟩ :=
                  ih bs2 published2 (pushCall st2 (RCall.describeStackEvents stackName))
                    pubF2 surfF rem2 stF2 hb2 hrec
                have hfreshN : ((freshOf published (eventsOpt.getD [])).map
                    (fun e => e.EventId)).Nodup := freshOf_ids_nodup _ _ hbatch
                have hnodupS : (surfaced.map (fun p => p.1.EventId)).Nodup := by
                  rw [hsurfIds]; exact hfreshN
                have hnotS : ∀ i ∈ surfaced.map (fun p => p.1.EventId),
                    published.contains i = false := by
                  intro i hi
                  rw [hsurfIds] at hi
                  obtain ⟨e, he, hei⟩ := List.mem_map.mp hi
                  rw [← hei]
                  exact freshOf_not_published published _ e he
                have hdisj : (surfaced.map (fun p => p.1.EventId)).Disjoint
                    (surfF.map (fun p => p.1.EventId)) := by
                  intro i hiS hiF
                  have hc := hnotF i hiF
                  rw [hpub2] at hc
                  have : ¬ i ∈ published ++ (freshOf published (eventsOpt.getD [])).map
                      (fun e => e.EventId) := by simpa using hc
                  exact this (List.mem_append.mpr (Or.inr (by rw [← hsurfIds]; exact hiS)))
                refine ⟨?_, ?_, ?_⟩
                · rw [← hE1, ← hE2, hpubF, hpub2, ← hsurfIds]
                  simp [List.append_assoc, List.map_append]
                · rw [← hE2, List.map_append]
                  exact List.Nodup.append hnodupS hnodupF hdisj
                · intro i hi
                  rw [← hE2, List.map_append] at hi
                  cases List.mem_append.mp hi with
                  | inl hiS => exact hnotS i hiS
                  | inr hiF =>
                    have hc := hnotF i hiF
                    rw [hpub2] at hc
                    have hnm : ¬ i ∈ published ++ (freshOf published
                        (eventsOpt.getD [])).map (fun e => e.EventId) := by simpa using hc
                    have : ¬ i ∈ published := fun hm => hnm (List.mem_append.mpr (Or.inl hm))
                    simpa using this
      · rw [if_neg hstat] at hrun
        cases hrun
        simp

/-- C7: across an arbitrary number of polls in one session (started with an
empty published-id list), the poller never surfaces the same event id twice,
provided each delivered batch lists its (unique) events once. -/
theorem c7_no_event_id_surfaced_twice (stackName : String) (ds : List DescribeR)
    (bs : List BatchR) (st : SagaState) (pubF : List String)
    (surf : List (StackEvent × String)) (rem : List DescribeR) (stF : SagaState)
    (hb : ∀ evs ∈ batchesOf bs, (evs.map (fun e => e.EventId)).Nodup)
    (hrun : pollLoop stackName ds bs [] st = .ok (pubF, surf, rem, stF)) :
    (surf.map (fun p => p.1.EventId)).Nodup :=
  (pollLoop_surfaced_spec stackName ds bs [] st pubF surf rem stF hb hrun).2.1

/-- C7 witness: the overlapping two-poll session surfaces ids `X`, `Y` once
each. -/
theorem c7_no_event_id_surfaced_twice_witness :
    (([(evX, "t | s"), (evY, "t | s")] : List (StackEvent × String)).map
      (fun p => p.1.EventId)).Nodup :=
  c7_no_event_id_surfaced_twice "team-a-namespace" twoPollDescribes overlappingBatches
    SagaState.empty ["X", "Y"] [(evX, "t | s"), (evY, "t | s")] []
    { log := [Ev.call (RCall.describeStacks "team-a-namespace"),
              Ev.call (RCall.describeStackEvents "team-a-namespace"),
              Ev.call (RCall.describeStacks "team-a-namespace"),
              Ev.call (RCall.describeStackEvents "team-a-namespace"),
              Ev.call (RCall.describeStacks "team-a-namespace")],
      comps := [] }
    (by decide) rfl

/-- C5 amended: whenever the final describe after the polling loop reports a
terminal status different from `CREATE_COMPLETE`, the operation fails with the
fixed classification message — which does not vary with, and hence does not
name, the observed status — and performs zero output reads: the final state
extends the post-loop state only by the final describe call, with no output
extraction and no further forward step. -/
theorem c5_nonsuccess_terminal_fails_without_output_reads
    (namespaceName clusterName : String) (env : CnEnv)
    (pub : List String) (surfaced : List (StackEvent × String))
    (d : DescribeR) (rem : List DescribeR) (st3 : SagaState) (stack : Stack)
    (hname : (namespaceName == "" || !nsNamePattern namespaceName) = false)
    (hmk : env.makeDirR = .ok ())
    (hcs : env.createStackR = .ok ())
    (hloop : pollLoop (namespaceName ++ "-namespace") env.describes env.eventBatches []
        (pushComp
          (pushCall (pushCall SagaState.empty (.makeDir ("./namespaces/" ++ namespaceName)))
            (.createStack (namespaceName ++ "-namespace")))
          (.deleteStack (namespaceName ++ "-namespace"))) =
      .ok (pub, surfaced, d :: rem, st3))
    (hd : d = Except.ok (some [stack]))
    (hstatus : (stack.StackStatus == "CREATE_COMPLETE") = false) :
    createNamespaceExec namespaceName clusterName env SagaState.empty =
      .error ("Unexpected AWS CloudFormation stack creation result.",
        pushCall st3 (.describeStacks (namespaceName ++ "-namespace"))) := by
  unfold createNamespaceExec
  simp only [hname, Bool.false_eq_true, if_false, hmk, hcs, hloop, finalDescribe,
    hd, describeStackStep, resolveStacks, hstatus, Bool.not_false, if_true]

/-- C5 witness: the rollback scenario instantiates the amended theorem. -/
theorem c5_nonsuccess_terminal_fails_without_output_reads_witness :
    createNamespaceExec "team-a" "prod" c5env SagaState.empty =
      .error ("Unexpected AWS CloudFormation stack creation result.",
        pushCall
          (pushCall
            (pushComp
              (pushCall (pushCall SagaState.empty (.makeDir ("./namespaces/" ++ "team-a")))
                (.createStack ("team-a" ++ "-namespace")))
              (.deleteStack ("team-a" ++ "-namespace")))
            (.describeStacks ("team-a" ++ "-namespace")))
          (.describeStacks ("team-a" ++ "-namespace"))) :=
  c5_nonsuccess_terminal_fails_without_output_reads "team-a" "prod" c5env
    [] [] (Except.ok (some [rollbackStack])) [] _ rollbackStack
    (by decide) rfl rfl rfl rfl (by decide)

/-- Well-paired logs are closed under concatenation. -/
theorem wellPaired_append (m : List Ev) (hm : wellPaired m = true) :
    ∀ l : List Ev, wellPaired l = true → wellPaired (l ++ m) = true := by
  intro l
  induction l using wellPaired.induct with
  | case1 => intro _; simpa using hm
  | case2 c rest => intro hl; simp [wellPaired] at hl
  | case3 c rest hc ih =>
    intro hl
    rw [List.cons_append]
    simp only [wellPaired, hc] at hl ⊢
    exact ih hl
  | case4 c comp hc c2 rest2 ih =>
    intro hl
    rw [List.cons_append, List.cons_append]
    simp only [wellPaired, hc, Bool.and_eq_true] at hl ⊢
    exact ⟨hl.1, ih hl.2⟩
  | case5 c rest comp hc hne =>
    intro hl
    exfalso
    simp only [wellPaired, hc] at hl
    cases rest with
    | nil => cases hl
    | cons ev tail =>
      cases ev with
      | call c3 => cases hl
      | addComp c3 => exact hne c3 tail rfl

/-- Appending a compensable call and its registration preserves the saga
invariant. -/
theorem SInv_pushPair (st : SagaState) (c : RCall) (comp : Comp) (h : SInv st)
    (hc : compOf c = some comp) : SInv (pushComp (pushCall st c) comp) := by
  obtain ⟨h1, h2⟩ := h
  constructor
  · show wellPaired ((st.log ++ [Ev.call c]) ++ [Ev.addComp comp]) = true
    rw [List.append_assoc]
    refine wellPaired_append _ ?_ _ h1
    simp [wellPaired, hc]
  · show st.comps ++ [comp] = logComps ((st.log ++ [Ev.call c]) ++ [Ev.addComp comp])
    simp [logComps, List.filterMap_append, h2]

/-- Appending a non-compensable call preserves the saga invariant. -/
theorem SInv_pushCall (st : SagaState) (c : RCall) (h : SInv st)
    (hc : compOf c = none) : SInv (pushCall st c) := by
  obtain ⟨h1, h2⟩ := h
  constructor
  · show wellPaired (st.log ++ [Ev.call c]) = true
    refine wellPaired_append _ ?_ _ h1
    simp [wellPaired, hc]
  · show st.comps = logComps (st.log ++ [Ev.call c])
    simp [logComps, List.filterMap_append, h2]

/-- A `describeStack()` call preserves the saga invariant, whether it
resolves, fails remotely or fails resolution. -/
theorem describeStackStep_SInv (stackName : String) (d : DescribeR) (st : SagaState)
    (h : SInv st) : SInv (stepEndState (describeStackStep stackName d st)) := by
  unfold describeStackStep
  split
  · simpa [stepEndState] using h
  · try dsimp only []
    split
    · simpa [stepEndState] using
        SInv_pushCall st (RCall.describeStacks stackName) h rfl
    · simpa [stepEndState] using
        SInv_pushCall st (RCall.describeStacks stackName) h rfl

/-- The polling loop preserves the saga invariant: it performs only reads. -/
theorem pollLoop_SInv (stackName : String) :
    ∀ (ds : List DescribeR) (bs : List BatchR) (published : List String)
      (st : SagaState), SInv st →
      SInv (pollEndState (pollLoop stackName ds bs published st)) := by
  intro ds
  induction ds with
  | nil =>
    intro bs published st h
    simpa [pollLoop, pollEndState] using h
  | cons d ds ih =>
    intro bs published st h
    unfold pollLoop
    split
    · rename_i e heq
      have hd := describeStackStep_SInv stackName d st h
      rw [heq] at hd
      simpa [pollEndState, stepEndState] using hd
    · rename_i stack st2 heq
      have h2 : SInv st2 := by
        have hd := describeStackStep_SInv stackName d st h
        rw [heq] at hd
        simpa [stepEndState] using hd
      split
      · cases bs with
        | nil => simpa [pollEndState] using h2
        | cons b bs2 =>
          cases b with
          | error e => simpa [pollEndState] using h2
          | ok eventsOpt =>
            try dsimp only []
            have h3 : SInv (pushCall st2 (RCall.describeStackEvents stackName)) :=
              SInv_pushCall st2 (RCall.describeStackEvents stackName) h2 rfl
            split
            · simpa [pollEndState] using h3
            · rename_i published2 surfaced heq2
              have h4 := ih bs2 published2
                (pushCall st2 (RCall.describeStackEvents stackName)) h3
              split
              · rename_i e2 heq3
                rw [heq3] at h4
                simpa [pollEndState] using h4
              · rename_i pubF surfF rem stF heq3
                rw [heq3] at h4
                simpa [pollEndState] using h4
      · simpa [pollEndState] using h2

/-- One `create-k8s-namespace-user` run preserves the saga invariant: each of
its three side-effecting calls registers its compensation immediately upon
success, before the next call. -/
theorem createKubernetesNamespaceUserExec_SInv (p : UserParams) (env : K8sUserEnv)
    (st0 : SagaState) (h : SInv st0) :
    SInv (finalState (createKubernetesNamespaceUserExec p env st0)) := by
  unfold createKubernetesNamespaceUserExec
  split
  · simpa [finalState] using h
  · try dsimp only []
    split
    · simp only [finalState]
      exact SInv_pushPair _ _ _ h rfl
    · try dsimp only []
      split
      · simp only [finalState]
        exact SInv_pushPair _ _ _ (SInv_pushPair _ _ _ h rfl) rfl
      · try dsimp only []
        split
        · simp only [finalState]
          exact SInv_pushCall _ _
            (SInv_pushPair _ _ _ (SInv_pushPair _ _ _ h rfl) rfl) rfl
        · simp only [finalState]
          refine SInv_pushPair _ _ _
            (SInv_pushCall _ _
              (SInv_pushPair _ _ _ (SInv_pushPair _ _ _ h rfl) rfl) rfl) ?_
          simp [compOf, List.getLast?_concat]

/-- The final describe preserves the saga invariant. -/
theorem finalDescribe_SInv (stackName : String) (remaining : List DescribeR)
    (st : SagaState) (h : SInv st) :
    SInv (stepEndState (finalDescribe stackName remaining st)) := by
  unfold finalDescribe
  cases remaining with
  | nil => simpa [stepEndState] using h
  | cons d rem => exact describeStackStep_SInv stackName d st h

/-- The whole `create-namespace` run preserves the saga invariant. -/
theorem createNamespaceExec_SInv (namespaceName clusterName : String) (env : CnEnv)
    (st0 : SagaState) (h : SInv st0) :
    SInv (finalState (createNamespaceExec namespaceName clusterName env st0)) := by
  unfold createNamespaceExec
  split
  · simpa [finalState] using h
  · split
    · simpa [finalState] using h
    · try dsimp only []
      split
      · simp only [finalState]
        exact SInv_pushCall _ _ h rfl
      · try dsimp only []
        have hst2 : SInv (pushComp
            (pushCall (pushCall st0 (RCall.makeDir ("./namespaces/" ++ namespaceName)))
              (RCall.createStack (namespaceName ++ "-namespace")))
            (Comp.deleteStack (namespaceName ++ "-namespace"))) :=
          SInv_pushPair _ _ _ (SInv_pushCall _ _ h rfl) rfl
        have hp := pollLoop_SInv (namespaceName ++ "-namespace") env.describes
          env.eventBatches [] _ hst2
        split
        · rename_i e heq
          rw [heq] at hp
          obtain ⟨e1, stE⟩ := e
          simpa [finalState, pollEndState] using hp
        · rename_i pub surf remaining st3 heq
          rw [heq] at hp
          have hst3 : SInv st3 := by simpa [pollEndState] using hp
          try dsimp only []
          have hfd := finalDescribe_SInv (namespaceName ++ "-namespace") remaining st3 hst3
          split
          · rename_i e heq2
            rw [heq2] at hfd
            obtain ⟨e1, stE⟩ := e
            simpa [finalState, stepEndState] using hfd
          · rename_i stack st4 heq2
            rw [heq2] at hfd
            have hst4 : SInv st4 := by simpa [stepEndState] using hfd
            split
            · simpa [finalState] using hst4
            · split
              · simpa [finalState] using hst4
              · try dsimp only []
                have hst5 : SInv (pushComp
                    (pushCall st4 (RCall.createNamespace namespaceName))
                    (Comp.deleteNamespace namespaceName)) :=
                  SInv_pushPair _ _ _ hst4 rfl
                have hu1 := createKubernetesNamespaceUserExec_SInv
                  { clusterName := clusterName, namespaceName := namespaceName,
                    roleArn := recordGet (extractOutputs stack) "AdminKubernetesRole",
                    suffix := "admin", rbacRules := adminRbacRules }
                  env.user1
                  (pushComp (pushCall st4 (RCall.createNamespace namespaceName))
                    (Comp.deleteNamespace namespaceName)) hst5
                split
                · rename_i e heq3
                  rw [heq3] at hu1
                  exact hu1
                · rename_i st6 heq3
                  rw [heq3] at hu1
                  have hst6 : SInv st6 := by simpa [finalState] using hu1
                  exact createKubernetesNamespaceUserExec_SInv _ env.user2 st6 hst6

/-- C6: for every environment (any pattern of remote successes and failures),
the state in which a `create-namespace` run ends — having started from the
empty revert stack — satisfies the mirroring discipline: every registration in
the chronological log immediately follows its paired successful side-effecting
call, every compensable successful call is immediately followed by its
registration before the next step, and the shared revert stack holds exactly
the registered compensations in order. -/
theorem c6_revert_stack_mirrors_effects (namespaceName clusterName : String)
    (env : CnEnv) :
    wellPaired (finalState
      (createNamespaceExec namespaceName clusterName env SagaState.empty)).log = true ∧
    (finalState (createNamespaceExec namespaceName clusterName env
      SagaState.empty)).comps =
      logComps (finalState (createNamespaceExec namespaceName clusterName env
        SagaState.empty)).log :=
  createNamespaceExec_SInv namespaceName clusterName env SagaState.empty
    ⟨rfl, rfl⟩

/-- The first character class of the pattern agrees, character by character,
with `[a-z]` on the case-folded code point. -/
theorem nsLetterCI_foldCase (c : Char) :
    nsLetterCI c = ((97 ≤ foldCaseNat c) && (foldCaseNat c ≤ 122)) := by
  unfold nsLetterCI foldCaseNat
  rw [Bool.eq_iff_iff]
  split
  · rename_i h
    simp only [Bool.and_eq_true, decide_eq_true_eq] at h
    simp only [Bool.or_eq_true, Bool.and_eq_true, decide_eq_true_eq]
    omega
  · rename_i h
    simp only [Bool.and_eq_true, decide_eq_true_eq] at h
    simp only [Bool.or_eq_true, Bool.and_eq_true, decide_eq_true_eq]
    omega

/-- The tail character class of the pattern agrees, character by character,
with `[a-z0-9-]` on the case-folded code point. -/
theorem nsRest_foldCase (c : Char) :
    (nsLetterCI c || nsDigit c || c.toNat == 45) =
      ((97 ≤ foldCaseNat c && foldCaseNat c ≤ 122) ||
        (48 ≤ foldCaseNat c && foldCaseNat c ≤ 57) || foldCaseNat c == 45) := by
  unfold nsLetterCI nsDigit foldCaseNat
  rw [Bool.eq_iff_iff]
  split
  · rename_i h
    simp only [Bool.and_eq_true, decide_eq_true_eq] at h
    simp only [Bool.or_eq_true, Bool.and_eq_true, decide_eq_true_eq, beq_iff_eq]
    omega
  · rename_i h
    simp only [Bool.and_eq_true, decide_eq_true_eq] at h
    simp only [Bool.or_eq_true, Bool.and_eq_true, decide_eq_true_eq, beq_iff_eq]
    omega

/-- The tail class agrees on whole lists of characters. -/
theorem all_foldCase (l : List Char) :
    (l.all fun d => nsLetterCI d || nsDigit d || d.toNat == 45) =
      ((l.map foldCaseNat).all fun m =>
        (97 ≤ m && m ≤ 122) || (48 ≤ m && m ≤ 57) || m == 45) := by
  induction l with
  | nil => rfl
  | cons d tail ih =>
    rw [List.all_cons, List.map_cons, List.all_cons, ih, nsRest_foldCase]

/-- The source's `i`-flagged pattern match coincides with the plain lowercase
pattern applied to case-folded code points. -/
theorem nsNamePattern_eq_specCI (s : String) :
    nsNamePattern s = specNamePatternCI s := by
  unfold nsNamePattern specNamePatternCI
  cases hl : s.toList with
  | nil => rfl
  | cons c rest =>
    simp only [List.map_cons]
    rw [nsLetterCI_foldCase, all_foldCase]

/-- C10: the namespace-name validation of `create-namespace` is
case-insensitive — it rejects a name exactly when the name does not match
`/^[a-z][a-z0-9\-]*$/` applied case-insensitively (matched here on case-folded
code points) — and the uppercase name `Team-A` passes the check, after which
provisioning proceeds to the remote calls (the directory and stack
creations). -/
theorem c10_validation_case_insensitive :
    (∀ s : String, (!(s == "" || !nsNamePattern s)) = specNamePatternCI s) ∧
    (!(("Team-A" == "") || !nsNamePattern "Team-A")) = true ∧
    (finalState (createNamespaceExec "Team-A" "prod" c1env SagaState.empty)).log.take 2 =
      [Ev.call (RCall.makeDir "./namespaces/Team-A"),
        Ev.call (RCall.createStack "Team-A-namespace")] := by
  refine ⟨?_, by decide, rfl⟩
  intro s
  by_cases he : (s == "") = true
  · have hs : s = "" := eq_of_beq he
    subst hs
    rfl
  · have hne : (s == "") = false := by
      cases hb : (s == "") with
      | false => rfl
      | true => exact absurd hb he
    rw [hne]
    simp only [Bool.false_or, Bool.not_not]
    exact nsNamePattern_eq_specCI s

end AlphaK8s
